import Mathlib

/-!
# Verification of the ComfyUI API client (`src/openpose-workflow.py`, `src/qwen-mutli-workflow.py`)

Shallow embedding of the client's decision logic. The two source files share an
identical `ComfyUIClient` class (they differ only in the workflow-patching
helpers and `main`), so the client is embedded once.

Modelling conventions:
* JSON values are the inductive `Json`; numeric leaves are modelled as `Int`
  (no claim under verification depends on float semantics).
* Python runtime failures are values of `PyErr`; fallible operations return
  `Except PyErr _`.  `pyGet`, `pyContains`, `pyIter`, `pyGetDefault` reproduce
  Python's `d[k]`, `k in d`, iteration, and `d.get(k, default)` on the shapes of
  values that can reach them, including the `TypeError`/`KeyError`/
  `AttributeError` behaviour on non-dict operands.
* Network and filesystem effects (the HTTP requests themselves, `ws.recv`,
  image bytes, file writes, `print`) are not modelled as effects: responses and
  received frames are inputs to the embedded functions, and diagnostic output
  is returned as a list of lines where a claim refers to it.
* Wall-clock readings of `time.time() - start_time` are modelled as natural
  numbers supplied with the input trace.
-/

set_option autoImplicit false

namespace ComfyUI

/-- JSON values, as produced by `json.loads`.  Numbers are modelled as `Int`. -/
inductive Json where
  | null
  | bool (b : Bool)
  | num (n : Int)
  | str (s : String)
  | arr (elems : List Json)
  | obj (fields : List (String × Json))

/-- Python runtime errors that the embedded code paths can raise. -/
inductive PyErr where
  | keyError (k : String)
  | typeError
  | attributeError
  | valueError (msg : String)
  | timeoutError (msg : String)
  | httpError (status : Nat)
  | connectionError
deriving DecidableEq

/-- First binding of a key in a JSON-object field list (Python dicts have
unique keys; `json.loads` deduplicates them). -/
def lookupField : List (String × Json) → String → Option Json
  | [], _ => none
  | (k', v) :: rest, k => if k' = k then some v else lookupField rest k

/-- Insert-or-replace on a JSON-object field list: Python dict assignment
`d[k] = v` updates an existing key in place (preserving insertion order) and
otherwise appends the new key at the end. -/
def insertReplaceS : List (String × Json) → String → Json → List (String × Json)
  | [], k, v => [(k, v)]
  | (k', v') :: rest, k, v =>
    if k' = k then (k', v) :: rest else (k', v') :: insertReplaceS rest k v

mutual

/-- Structural equality on JSON values, used for Python `==` between values
levelled from JSON and for dict-key equality.  (Python's numeric cross-type
equalities such as `1 == True` cannot arise from the JSON shapes the client
compares.) -/
def jsonBeq : Json → Json → Bool
  | .null, .null => true
  | .bool a, .bool b => a = b
  | .num a, .num b => a = b
  | .str a, .str b => a = b
  | .arr a, .arr b => jsonListBeq a b
  | .obj a, .obj b => jsonFieldsBeq a b
  | _, _ => false

/-- Pointwise `jsonBeq` on arrays. -/
def jsonListBeq : List Json → List Json → Bool
  | [], [] => true
  | a :: as', b :: bs => jsonBeq a b && jsonListBeq as' bs
  | _, _ => false

/-- Pointwise `jsonBeq` on object field lists. -/
def jsonFieldsBeq : List (String × Json) → List (String × Json) → Bool
  | [], [] => true
  | (ka, va) :: as', (kb, vb) :: bs => ka = kb && jsonBeq va vb && jsonFieldsBeq as' bs
  | _, _ => false

end

/-- Python `v == s` for a JSON value `v` and a string literal `s`:
true exactly when `v` is that string. -/
def jsonIsStr (j : Json) (s : String) : Bool :=
  match j with
  | .str t => t = s
  | _ => false

/-- Python `x[k]` for a string key `k`: key lookup on dicts (`KeyError` when
missing), `TypeError` on every other JSON shape (str/list/int/None/bool do not
support string subscripts). -/
def pyGet (j : Json) (k : String) : Except PyErr Json :=
  match j with
  | .obj fields =>
    match lookupField fields k with
    | some v => .ok v
    | none => .error (.keyError k)
  | _ => .error .typeError

/-- Substring test on character lists (Python `needle in haystack` for
strings). -/
def isSubstr (needle : List Char) : List Char → Bool
  | [] => needle.isEmpty
  | c :: rest => needle.isPrefixOf (c :: rest) || isSubstr needle rest

/-- Python `k in x` for a string `k`: key membership on dicts, substring test
on strings, element membership on lists, `TypeError` on the remaining shapes. -/
def pyContains (j : Json) (k : String) : Except PyErr Bool :=
  match j with
  | .obj fields => .ok (lookupField fields k).isSome
  | .str s => .ok (isSubstr k.data s.data)
  | .arr xs => .ok (xs.any (fun x => jsonIsStr x k))
  | _ => .error .typeError

/-- Python `x.get(k, default)`: only dicts have `.get`
(`AttributeError` otherwise). -/
def pyGetDefault (j : Json) (k : String) (d : Json) : Except PyErr Json :=
  match j with
  | .obj fields => .ok ((lookupField fields k).getD d)
  | _ => .error .attributeError

/-- Python iteration `for x in v`: lists yield elements, strings yield their
characters, dicts yield their keys, the remaining shapes raise `TypeError`. -/
def pyIter (j : Json) : Except PyErr (List Json) :=
  match j with
  | .arr xs => .ok xs
  | .str s => .ok (s.data.map (fun c => .str (String.mk [c])))
  | .obj fields => .ok (fields.map (fun p => .str p.1))
  | _ => .error .typeError

/-- Python truthiness of a JSON value. -/
def pyTruthy : Json → Bool
  | .null => false
  | .bool b => b
  | .num n => n ≠ 0
  | .str s => s ≠ ""
  | .arr xs => ¬ xs.isEmpty
  | .obj fs => ¬ fs.isEmpty

/-- Only hashable values may be dict keys; lists and dicts raise `TypeError`. -/
def pyHashable : Json → Bool
  | .arr _ => false
  | .obj _ => false
  | _ => true

/-- `output_images` in `wait_for_completion`: a Python dict keyed by the JSON
value `data['node']`. -/
abbrev Dict := List (Json × Json)

/-- Insert-or-replace with JSON keys (Python dict assignment semantics:
update in place preserving insertion order, else append). -/
def dictInsertReplace : Dict → Json → Json → Dict
  | [], k, v => [(k, v)]
  | (k', v') :: rest, k, v =>
    if jsonBeq k' k then (k', v) :: rest else (k', v') :: dictInsertReplace rest k v

/-- Python `d[k] = v` on `output_images`: `TypeError` for unhashable keys. -/
def dictInsert (d : Dict) (k v : Json) : Except PyErr Dict :=
  if pyHashable k then .ok (dictInsertReplace d k v) else .error .typeError

/-- First binding of a JSON key in a `Dict`. -/
def dictLookup : Dict → Json → Option Json
  | [], _ => none
  | (k', v) :: rest, k => if jsonBeq k' k then some v else dictLookup rest k

/-! ## `wait_for_completion` (lines 304-365 of both source files)

The notification-channel traffic is an input trace.  Each trace entry pairs the
value of `time.time() - start_time` observed at the loop-guard evaluation
immediately preceding that receive with the event the receive produces; `tEnd`
is the elapsed time observed at the post-loop timeout check.  A run whose trace
is exhausted while the guard still holds would block in `ws.recv()` forever and
is modelled as `none`. -/

/-- One value produced by `self.ws.recv()`: a text frame (already parsed — the
service sends JSON text frames), or a binary frame (payload irrelevant: the
loop ignores it). -/
inductive Frame where
  | binary
  | text (j : Json)

/-- One iteration's receive outcome: a frame, or `ws.recv()` itself raising
(connection failure). -/
inductive Event where
  | frame (f : Frame)
  | recvFail

/-- Fold of `for image in data['output']['images']` in the `executed` branch:
`data['node']` is re-evaluated on every iteration, as in the source. -/
def foldImages (data : Json) (imgs : Dict) : List Json → Except PyErr (Dict × Bool)
  | [] => .ok (imgs, false)
  | im :: rest =>
    match pyGet data "node" with
    | .error e => .error e
    | .ok node =>
      match dictInsert imgs node im with
      | .error e => .error e
      | .ok imgs' => foldImages data imgs' rest

/-- Body of one loop iteration of `wait_for_completion` on a received frame.
Returns the updated `output_images` and whether the iteration executed
`break`.  Mirrors the source line by line, including the short-circuit in
`data['node'] is None and data['prompt_id'] == prompt_id` and the repeated
evaluation of `data['output']`. -/
def processFrame (prompt_id : String) (imgs : Dict) (f : Frame) :
    Except PyErr (Dict × Bool) :=
  match f with
  | .binary => .ok (imgs, false)
  | .text msg =>
    match pyGet msg "type" with
    | .error e => .error e
    | .ok ty =>
      if jsonIsStr ty "executing" then
        match pyGet msg "data" with
        | .error e => .error e
        | .ok data =>
          match pyGet data "node" with
          | .error e => .error e
          | .ok node =>
            match node with
            | .null =>
              match pyGet data "prompt_id" with
              | .error e => .error e
              | .ok pv =>
                if jsonIsStr pv prompt_id then .ok (imgs, true) else .ok (imgs, false)
            | _ => .ok (imgs, false)
      else if jsonIsStr ty "progress" then
        match pyGet msg "data" with
        | .error e => .error e
        | .ok data =>
          match pyGet data "value" with
          | .error e => .error e
          | .ok _ =>
            match pyGet data "max" with
            | .error e => .error e
            | .ok _ => .ok (imgs, false)
      else if jsonIsStr ty "executed" then
        match pyGet msg "data" with
        | .error e => .error e
        | .ok data =>
          match pyContains data "output" with
          | .error e => .error e
          | .ok false => .ok (imgs, false)
          | .ok true =>
            match pyGet data "output" with
            | .error e => .error e
            | .ok out =>
              match pyContains out "images" with
              | .error e => .error e
              | .ok false => .ok (imgs, false)
              | .ok true =>
                match pyGet data "output" with
                | .error e => .error e
                | .ok out2 =>
                  match pyGet out2 "images" with
                  | .error e => .error e
                  | .ok imgsJson =>
                    match pyIter imgsJson with
                    | .error e => .error e
                    | .ok items => foldImages data imgs items
      else .ok (imgs, false)

/-- One receive event: a failing `ws.recv()` propagates, a frame is processed
by the loop body. -/
def stepEvent (prompt_id : String) (imgs : Dict) (ev : Event) :
    Except PyErr (Dict × Bool) :=
  match ev with
  | .recvFail => .error .connectionError
  | .frame f => processFrame prompt_id imgs f

/-- The message of the `TimeoutError` raised by `wait_for_completion`. -/
def timeoutMsg (timeout : Nat) : String :=
  "Prompt execution timed out after " ++ toString timeout ++ " seconds"

/-- Outcome of a `wait_for_completion` call: the returned value or propagated
error, and whether `self.ws.close()` ran before the call ended. -/
structure WaitResult where
  result : Except PyErr Dict
  wsClosed : Bool

/-- The code after the loop: `self.ws.close()` runs unconditionally here, then
the post-loop check re-reads the clock (`tEnd`) and raises `TimeoutError` when
the elapsed time has reached the budget — regardless of how the loop exited. -/
def afterLoop (timeout tEnd : Nat) (imgs : Dict) : WaitResult :=
  if timeout ≤ tEnd then ⟨.error (.timeoutError (timeoutMsg timeout)), true⟩
  else ⟨.ok imgs, true⟩

/-- The wait loop.  Guard reading `t ≥ timeout` exits the loop before the
receive (the paired event is never consumed); an exception from `ws.recv()` or
from processing propagates immediately — the source has no `try/finally`, so
`self.ws.close()` is skipped on that path (`wsClosed = false`). -/
def runWaitLoop (prompt_id : String) (timeout tEnd : Nat) :
    Dict → List (Nat × Event) → Option WaitResult
  | _, [] => none
  | imgs, (t, ev) :: rest =>
    if timeout ≤ t then some (afterLoop timeout tEnd imgs)
    else
      match stepEvent prompt_id imgs ev with
      | .error e => some ⟨.error e, false⟩
      | .ok (imgs', true) => some (afterLoop timeout tEnd imgs')
      | .ok (imgs', false) => runWaitLoop prompt_id timeout tEnd imgs' rest

/-- `ComfyUIClient.wait_for_completion`, from opening the notification-channel
connection to returning `output_images` or propagating an error. -/
def wait_for_completion (prompt_id : String) (timeout : Nat)
    (events : List (Nat × Event)) (tEnd : Nat) : Option WaitResult :=
  runWaitLoop prompt_id timeout tEnd [] events

/-- The global completion message: `{"type": "executing",
"data": {"node": null, "prompt_id": prompt_id}}`. -/
def completionMsg (prompt_id : String) : Json :=
  .obj [("type", .str "executing"), ("data", .obj [("node", .null), ("prompt_id", .str prompt_id)])]

/-! ## Workflow-patching helpers

A workflow (Job Definition) is the top-level dict loaded by `load_workflow`:
its field list.  The helpers mutate it in place in Python; here the mutated
dict is rebuilt, with `insertReplaceS` reproducing dict-assignment semantics.
`client.upload_image(path)` is network I/O; where a client is present it is
modelled by a function `String → String` giving the server-assigned filename
(`result['filename']`) for each uploaded local path. -/

/-- The top-level workflow dict: node identifier → node record. -/
abbrev Workflow := List (String × Json)

/-- `os.path.basename` (POSIX): everything after the last `/`. -/
def basename (p : String) : String :=
  String.mk ((p.data.reverse.takeWhile (fun c => c ≠ '/')).reverse)

/-- The statement `workflow[node_id]["inputs"][field] = v`: evaluation order is
`workflow[node_id]` (`KeyError` when absent), then `["inputs"]` (`KeyError`
when the node record lacks it, `TypeError` when the record is not a dict),
then item assignment on the inputs value (`TypeError` when not a dict — a
missing `field` key is simply created). -/
def setNodeInput (w : Workflow) (node_id field : String) (v : Json) :
    Except PyErr Workflow :=
  match lookupField w node_id with
  | none => .error (.keyError node_id)
  | some node =>
    match pyGet node "inputs" with
    | .error e => .error e
    | .ok inputs =>
      match inputs with
      | .obj inp => .ok (insertReplaceS w node_id
          (match node with
           | .obj nf => .obj (insertReplaceS nf "inputs" (.obj (insertReplaceS inp field v)))
           | other => other))
      | _ => .error .typeError

/-- `update_workflow_image` (src/openpose-workflow.py lines 459-486).
`if image_path and node_id in workflow:` — `None` and the empty string are
falsy.  With a client, the assigned value is the uploaded filename; without,
the local basename. -/
def update_workflow_image (workflow : Workflow) (client : Option (String → String))
    (image_path : Option String) (node_id : String) : Except PyErr Workflow :=
  match image_path with
  | none => .ok workflow
  | some p =>
    if p = "" then .ok workflow
    else if (lookupField workflow node_id).isSome then
      match client with
      | some upload => setNodeInput workflow node_id "image" (.str (upload p))
      | none => setNodeInput workflow node_id "image" (.str (basename p))
    else .ok workflow

/-- `update_workflow_images` (src/qwen-mutli-workflow.py lines 459-501): three
independent guarded patches targeting nodes "78", "106", "108". -/
def update_workflow_images (workflow : Workflow) (client : Option (String → String))
    (image1_path image2_path image3_path : Option String) : Except PyErr Workflow :=
  match update_workflow_image workflow client image1_path "78" with
  | .error e => .error e
  | .ok w1 =>
    match update_workflow_image w1 client image2_path "106" with
    | .error e => .error e
    | .ok w2 => update_workflow_image w2 client image3_path "108"

/-- `update_workflow_prompt` (src/qwen-mutli-workflow.py lines 504-517):
`if "111" in workflow: workflow["111"]["inputs"]["prompt"] = prompt`. -/
def update_workflow_prompt (workflow : Workflow) (prompt : String) :
    Except PyErr Workflow :=
  if (lookupField workflow "111").isSome then
    setNodeInput workflow "111" "prompt" (.str prompt)
  else .ok workflow

/-- The inner guarded assignment shared by `update_workflow_lora` and
`update_workflow_seed`: `if "inputs" in workflow[node_id] and field in
workflow[node_id]["inputs"]: workflow[node_id]["inputs"][field] = v`.
The membership tests follow Python `in` semantics (`pyContains`), and the
re-subscript `workflow[node_id]["inputs"]` can still raise `TypeError` when
the first test succeeded on a non-dict (substring on a string). -/
def setNodeInputIfPresent (w : Workflow) (node : Json) (node_id field : String)
    (v : Json) : Except PyErr Workflow :=
  match pyContains node "inputs" with
  | .error e => .error e
  | .ok false => .ok w
  | .ok true =>
    match pyGet node "inputs" with
    | .error e => .error e
    | .ok inputs =>
      match pyContains inputs field with
      | .error e => .error e
      | .ok false => .ok w
      | .ok true =>
        match inputs with
        | .obj inp => .ok (insertReplaceS w node_id
            (match node with
             | .obj nf => .obj (insertReplaceS nf "inputs" (.obj (insertReplaceS inp field v)))
             | other => other))
        | _ => .error .typeError

/-- `update_workflow_lora` (src/qwen-mutli-workflow.py lines 520-536):
patches only when the node exists AND its record has an `inputs` dict AND that
dict already has a `lora_name` field. -/
def update_workflow_lora (workflow : Workflow) (lora_name : Option String)
    (node_id : String) : Except PyErr Workflow :=
  match lora_name with
  | none => .ok workflow
  | some ln =>
    if ln = "" then .ok workflow
    else
      match lookupField workflow node_id with
      | none => .ok workflow
      | some node => setNodeInputIfPresent workflow node node_id "lora_name" (.str ln)

/-- `update_workflow_seed` (src/qwen-mutli-workflow.py lines 539-562).
When `seed is None` the source draws `random.randint(0, 2**32 - 1)`; the drawn
value is supplied as the `rand` argument.  Both branches guard on the node,
its `inputs` dict, and an existing `seed` field. -/
def update_workflow_seed (workflow : Workflow) (seed : Option Int)
    (node_id : String) (rand : Int) : Except PyErr Workflow :=
  match seed with
  | some s =>
    match lookupField workflow node_id with
    | none => .ok workflow
    | some node => setNodeInputIfPresent workflow node node_id "seed" (.num s)
  | none =>
    match lookupField workflow node_id with
    | none => .ok workflow
    | some node => setNodeInputIfPresent workflow node node_id "seed" (.num rand)

/-! ## Saved-filename derivation in `generate_image` (lines 409-412)

Filenames are modelled as character lists.  `splitext` is CPython's
`posixpath.splitext`: the extension starts at the last dot, provided that dot
lies after the last path separator and the basename has at least one non-dot
character before it (so purely leading dots, as in `.bashrc`, are not an
extension). -/

/-- `os.path.splitext` (POSIX). -/
def splitext (p : List Char) : List Char × List Char :=
  let baseRev := p.reverse.takeWhile (fun c => c ≠ '/')
  let extRev := baseRev.takeWhile (fun c => c ≠ '.')
  if extRev.length = baseRev.length then (p, [])
  else if (baseRev.drop (extRev.length + 1)).any (fun c => c ≠ '.') then
    (p.take (p.length - extRev.length - 1), '.' :: extRev.reverse)
  else (p, [])

/-- `new_filename = f"{name}_{timestamp}{ext}"` where
`name, ext = os.path.splitext(filename)`. -/
def newFilename (filename ts : List Char) : List Char :=
  (splitext filename).1 ++ '_' :: ts ++ (splitext filename).2

/-- The shape of `datetime.now().strftime("%Y%m%d_%H%M%S")`: 15 characters,
digits with an underscore at index 8. -/
def isTimestamp (ts : List Char) : Bool :=
  ts.length = 15 && ts.get? 8 = some '_' && ts.all (fun c => c.isDigit || c = '_')

/-- Modelled from the spec: the round-trip recovery operation — split off the
extension of a saved filename, then strip the inserted 16-character
`_YYYYMMDD_HHMMSS` segment from the end of the stem. -/
def specStripTimestamp (s : List Char) : List Char × List Char :=
  ((splitext s).1.take ((splitext s).1.length - 16), (splitext s).2)

/-! ## Artifact collection in `generate_image` (lines 394-421)

`generate_image` orchestrates `queue_prompt`, `wait_for_completion`,
`get_history` and the save loop; the submission and wait are modelled above,
and the save loop is modelled here as a function of the history JSON returned
by `get_history`.  `get_image` (artifact bytes) and the file write are I/O
whose payloads do not influence the returned paths; `datetime.now()` is
supplied as the `ts` argument (the call formats a fresh reading per image —
all readings within one collection are modelled by the same value). -/

/-- `os.path.join` (POSIX) for one component. -/
def osPathJoin (a b : List Char) : List Char :=
  if b.head? = some '/' then b
  else if a = [] then b
  else if a.getLast? = some '/' then a ++ b
  else a ++ '/' :: b

/-- The inner loop `for image_info in node_output['images']`: look up
`image_info['filename']` (a `KeyError`/`TypeError` propagates and aborts the
whole call), derive the timestamped name, and record the joined output path.
`os.path.splitext` requires a string filename (`TypeError` otherwise). -/
def collectImages (output_dir ts : List Char) :
    List Json → Except PyErr (List (List Char))
  | [] => .ok []
  | img :: rest =>
    match pyGet img "filename" with
    | .error e => .error e
    | .ok fn =>
      match fn with
      | .str s =>
        match collectImages output_dir ts rest with
        | .error e => .error e
        | .ok paths => .ok (osPathJoin output_dir (newFilename s.data ts) :: paths)
      | _ => .error .typeError

/-- The outer loop `for node_id, node_output in history[prompt_id]['outputs']
.items()`, in the order returned by history. -/
def collectNodes (output_dir ts : List Char) :
    List (String × Json) → Except PyErr (List (List Char))
  | [] => .ok []
  | (_, node_output) :: rest =>
    match pyContains node_output "images" with
    | .error e => .error e
    | .ok false => collectNodes output_dir ts rest
    | .ok true =>
      match pyGet node_output "images" with
      | .error e => .error e
      | .ok imgsJson =>
        match pyIter imgsJson with
        | .error e => .error e
        | .ok items =>
          match collectImages output_dir ts items with
          | .error e => .error e
          | .ok paths =>
            match collectNodes output_dir ts rest with
            | .error e => .error e
            | .ok later => .ok (paths ++ later)

/-- The artifact-collection phase of `ComfyUIClient.generate_image`: from the
history returned by `get_history(prompt_id)` to the list `saved_images` of
written paths.  `if prompt_id in history:` guards the whole loop, so an absent
identifier yields `[]`; `history[prompt_id]['outputs'].items()` requires an
`outputs` dict (`.items()` on a non-dict raises `AttributeError`). -/
def generate_image_collect (history : Json) (prompt_id : String)
    (output_dir ts : List Char) : Except PyErr (List (List Char)) :=
  match pyContains history prompt_id with
  | .error e => .error e
  | .ok false => .ok []
  | .ok true =>
    match pyGet history prompt_id with
    | .error e => .error e
    | .ok entry =>
      match pyGet entry "outputs" with
      | .error e => .error e
      | .ok outputs =>
        match outputs with
        | .obj nodes => collectNodes output_dir ts nodes
        | _ => .error .attributeError

/-- Builder for a history node record: `none` models a node output without an
`images` key, `some files` a record `{"images": [{"filename": f}, ...]}`. -/
def mkNodeRecord : Option (List (List Char)) → Json
  | none => .obj []
  | some files => .obj [("images", .arr (files.map (fun f => .obj [("filename", .str (String.mk f))])))]

/-- Builder for a `get_history` response holding exactly the queried job:
`{prompt_id: {"outputs": {node_id: record, ...}}}`. -/
def mkHistory (prompt_id : String) (nodes : List (String × Option (List (List Char)))) : Json :=
  .obj [(prompt_id, .obj [("outputs", .obj (nodes.map (fun p => (p.1, mkNodeRecord p.2))))])]

/-! ## `queue_prompt` (lines 117-189)

The POST itself is network I/O; the embedded function takes the response
(status, parsed body when the body is valid JSON, raw body text) and returns
the result together with the diagnostic lines printed on the way.  The
`requests` error-text and `json.dumps` serializations of diagnostics are
abbreviated (`pyRepr` without string escaping); no claim depends on their
exact rendering, only on the lines built from the parsed error body. -/

mutual

/-- Python `repr` of a JSON-derived value (string escaping not modelled). -/
def pyRepr : Json → String
  | .null => "None"
  | .bool true => "True"
  | .bool false => "False"
  | .num n => toString n
  | .str s => "\x27" ++ s ++ "\x27"
  | .arr xs => "[" ++ pyReprList xs ++ "]"
  | .obj fs => "\x7b" ++ pyReprFields fs ++ "\x7d"

/-- Comma-joined `repr`s of array elements. -/
def pyReprList : List Json → String
  | [] => ""
  | [x] => pyRepr x
  | x :: y :: rest => pyRepr x ++ ", " ++ pyReprList (y :: rest)

/-- Comma-joined `repr`s of object entries. -/
def pyReprFields : List (String × Json) → String
  | [] => ""
  | [(k, v)] => "\x27" ++ k ++ "\x27: " ++ pyRepr v
  | (k, v) :: q :: rest => "\x27" ++ k ++ "\x27: " ++ pyRepr v ++ ", " ++ pyReprFields (q :: rest)

end

/-- Python `str()` of a JSON-derived value, as used by f-string interpolation:
strings render verbatim, everything else as its `repr`. -/
def pyStr : Json → String
  | .str s => s
  | j => pyRepr j

/-- Python string slicing `s[:n]`. -/
def strTake (s : String) (n : Nat) : String :=
  String.mk (s.data.take n)

/-- An HTTP response as consumed by `queue_prompt`: status code, the parsed
body when `json.loads` would succeed on it, and the raw body text. -/
structure HttpResponse where
  status : Nat
  bodyJson : Option Json
  bodyText : String

/-- `str()` of the `requests.HTTPError` raised by `raise_for_status`
(the reason phrase and URL are not modelled). -/
def httpErrorText (status : Nat) : String :=
  toString status ++ (if status < 500 then " Client Error" else " Server Error")

/-- `if err_details:` then `print(f"      Details: {err_details[:200]}")`.
Slicing only applies to sequences; a non-sequence truthy value raises
`TypeError`, absorbed by the enclosing `except: pass`. -/
def errDetailLines (details : Json) : List String × Bool :=
  if pyTruthy details then
    match details with
    | .str s => (["      Details: " ++ strTake s 200], true)
    | .arr xs => (["      Details: " ++ pyRepr (.arr (xs.take 200))], true)
    | _ => ([], false)
  else ([], true)

/-- One entry of a node's `errors` list: the three `.get` calls need a dict
(`AttributeError` otherwise), then the `- type: message` line and the optional
details line are printed. -/
def errEntryLines (err : Json) : List String × Bool :=
  match err with
  | .obj fs =>
    let t := (lookupField fs "type").getD (.str "Unknown")
    let m := (lookupField fs "message").getD (.str "Unknown error")
    let d := (lookupField fs "details").getD (.str "")
    let dl := errDetailLines d
    (("    - " ++ pyStr t ++ ": " ++ pyStr m) :: dl.1, dl.2)
  | _ => ([], false)

/-- `for err in node_error['errors']`; a failing entry aborts the rest but
keeps the lines already printed. -/
def errEntriesLines : List Json → List String × Bool
  | [] => ([], true)
  | e :: rest =>
    let r1 := errEntryLines e
    if r1.2 then
      let r2 := errEntriesLines rest
      (r1.1 ++ r2.1, r2.2)
    else (r1.1, false)

/-- One `node_id: node_error` entry of `node_errors`. -/
def nodeEntryLines (node_id : String) (node_error : Json) : List String × Bool :=
  let head := "  Node " ++ node_id ++ ":"
  match pyContains node_error "errors" with
  | .error _ => ([head], false)
  | .ok false => ([head], true)
  | .ok true =>
    match pyGet node_error "errors" with
    | .error _ => ([head], false)
    | .ok errsJson =>
      match pyIter errsJson with
      | .error _ => ([head], false)
      | .ok errs =>
        let r := errEntriesLines errs
        (head :: r.1, r.2)

/-- `for node_id, node_error in error_json['node_errors'].items()`. -/
def nodeEntriesLines : List (String × Json) → List String × Bool
  | [] => ([], true)
  | (nid, nerr) :: rest =>
    let r1 := nodeEntryLines nid nerr
    if r1.2 then
      let r2 := nodeEntriesLines rest
      (r1.1 ++ r2.1, r2.2)
    else (r1.1, false)

/-- The `if 'node_errors' in error_json:` block: the header line prints before
`.items()` can fail (`TypeError` on a non-dict subscript, `AttributeError` on
a non-dict `.items()`). -/
def nodeErrorsLines (j : Json) : List String × Bool :=
  match pyContains j "node_errors" with
  | .error _ => ([], false)
  | .ok false => ([], true)
  | .ok true =>
    match pyGet j "node_errors" with
    | .error _ => (["\nNode Errors:"], false)
    | .ok ne =>
      match ne with
      | .obj fields =>
        let r := nodeEntriesLines fields
        ("\nNode Errors:" :: r.1, r.2)
      | _ => (["\nNode Errors:"], false)

/-- The `if 'error' in error_json:` block: a top-level error dict yields the
`Error: message` line and an optional truthy `Details:` line; a non-dict value
prints nothing (`isinstance` guard). -/
def topErrorLines (j : Json) : List String × Bool :=
  match pyContains j "error" with
  | .error _ => ([], false)
  | .ok false => ([], true)
  | .ok true =>
    match pyGet j "error" with
    | .error _ => ([], false)
    | .ok info =>
      match info with
      | .obj fs =>
        let line1 := "\nError: " ++ pyStr ((lookupField fs "message").getD (.str "Unknown error"))
        match lookupField fs "details" with
        | some d => if pyTruthy d then ([line1, "Details: " ++ pyStr d], true) else ([line1], true)
        | none => ([line1], true)
      | _ => ([], true)

/-- The inner `try: ... except: pass` of the non-2xx handler: nothing is
attempted when the body is not valid JSON; otherwise the `node_errors` block
runs, and the `error` block only if the former did not raise.  Lines printed
before a failure survive the swallowed exception. -/
def errorBodyLines (bodyJson : Option Json) : List String :=
  match bodyJson with
  | none => []
  | some j =>
    let r1 := nodeErrorsLines j
    if r1.2 then r1.1 ++ (topErrorLines j).1 else r1.1

/-- Outcome of a `queue_prompt` call: the returned `prompt_id` value or the
propagated error, plus every diagnostic line printed. -/
structure QueueResult where
  result : Except PyErr Json
  printed : List String

/-- `ComfyUIClient.queue_prompt` from the response onward.  A non-2xx status
makes `raise_for_status` raise: the handler prints the error, status and
truncated body, attempts the structured error breakdown, and re-raises.  On a
2xx response the body must be JSON and carry `prompt_id`; otherwise the
fallback chain prints diagnostics and raises `ValueError`/`KeyError`. -/
def queue_prompt (resp : HttpResponse) : QueueResult :=
  if 400 ≤ resp.status then
    ⟨.error (.httpError resp.status),
      ("Error queueing prompt: " ++ httpErrorText resp.status)
      :: ("Response status: " ++ toString resp.status)
      :: ("Response text: " ++ strTake resp.bodyText 1000)
      :: errorBodyLines resp.bodyJson⟩
  else
    match resp.bodyJson with
    | none =>
      -- response.json() fails to decode; the error is printed and re-raised
      -- (which `except` clause catches it depends on the requests version;
      -- both re-raise).
      ⟨.error (.valueError "Expecting value"), ["Error parsing response: Expecting value"]⟩
    | some j =>
      match pyContains j "prompt_id" with
      | .error e => ⟨.error e, []⟩
      | .ok true =>
        match pyGet j "prompt_id" with
        | .ok v => ⟨.ok v, []⟩
        | .error e => ⟨.error e, []⟩
      | .ok false =>
        let l1 := "Error: Response does not contain \x27prompt_id\x27"
        let l2 := "Response: " ++ pyRepr j
        match pyContains j "error" with
        | .error e => ⟨.error e, [l1, l2]⟩
        | .ok true =>
          match pyGetDefault j "error" (.obj []) with
          | .error e => ⟨.error e, [l1, l2]⟩
          | .ok em =>
            let details :=
              match em with
              | .obj fs => (lookupField fs "message").getD em
              | _ => em
            let msg := "ComfyUI error: " ++ pyStr details
            ⟨.error (.valueError msg), [l1, l2, "Error parsing response: " ++ msg]⟩
        | .ok false =>
          let msg := "\x27prompt_id\x27 not found in response: " ++ pyStr j
          ⟨.error (.keyError msg), [l1, l2, "Error parsing response: " ++ msg]⟩

/-! ## Helper lemmas -/

/-- `d[k]` never raises `TimeoutError`. -/
@[simp] theorem pyGet_ne_timeout (j : Json) (k m : String) :
    pyGet j k ≠ .error (.timeoutError m) := by
  cases j <;> simp only [pyGet] <;> try simp
  rename_i fields
  cases lookupField fields k <;> simp

/-- `k in d` never raises `TimeoutError`. -/
@[simp] theorem pyContains_ne_timeout (j : Json) (k m : String) :
    pyContains j k ≠ .error (.timeoutError m) := by
  cases j <;> simp [pyContains]

/-- Iteration never raises `TimeoutError`. -/
@[simp] theorem pyIter_ne_timeout (j : Json) (m : String) :
    pyIter j ≠ .error (.timeoutError m) := by
  cases j <;> simp [pyIter]

/-- Dict assignment never raises `TimeoutError`. -/
@[simp] theorem dictInsert_ne_timeout (d : Dict) (k v : Json) (m : String) :
    dictInsert d k v ≠ .error (.timeoutError m) := by
  unfold dictInsert; split <;> simp

/-- The `executed` image fold never raises `TimeoutError`. -/
@[simp] theorem foldImages_ne_timeout (data : Json) (imgs : Dict) (items : List Json)
    (m : String) : foldImages data imgs items ≠ .error (.timeoutError m) := by
  induction items generalizing imgs with
  | nil => simp [foldImages]
  | cons im rest ih =>
    simp only [foldImages]
    split
    · rename_i e heq
      intro hcontra
      injection hcontra with h1
      subst h1
      exact pyGet_ne_timeout data "node" m heq
    · split
      · rename_i e heq
        intro hcontra
        injection hcontra with h1
        subst h1
        exact dictInsert_ne_timeout _ _ _ m heq
      · exact ih _

/-- The fold of `for image in ...` never executes `break`. -/
theorem foldImages_flag (data : Json) (imgs : Dict) (items : List Json)
    (d' : Dict) (b : Bool) (h : foldImages data imgs items = .ok (d', b)) : b = false := by
  induction items generalizing imgs with
  | nil => simp [foldImages] at h; exact h.2
  | cons im rest ih =>
    simp only [foldImages] at h
    split at h
    · exact absurd h (by simp)
    · split at h
      · exact absurd h (by simp)
      · exact ih _ h

/-- A loop iteration (receive plus processing) never raises `TimeoutError`:
the only `TimeoutError` in `wait_for_completion` is the post-loop raise. -/
theorem stepEvent_ne_timeout (pid : String) (imgs : Dict) (ev : Event) (m : String) :
    stepEvent pid imgs ev ≠ .error (.timeoutError m) := by
  cases ev with
  | recvFail => simp [stepEvent]
  | frame f =>
    cases f with
    | binary => simp [stepEvent, processFrame]
    | text msg =>
      simp only [stepEvent, processFrame]
      intro h
      repeat' split at h
      all_goals simp_all

/-- Exit analysis of the wait loop: `self.ws.close()` has run exactly when the
call returns normally or raises the post-loop `TimeoutError`; an exception
raised while receiving or processing a message propagates with the connection
still open. -/
theorem runWaitLoop_closed_iff (pid : String) (timeout tEnd : Nat) :
    ∀ (events : List (Nat × Event)) (imgs : Dict) (r : WaitResult),
      runWaitLoop pid timeout tEnd imgs events = some r →
      (r.wsClosed = true ↔
        ((∃ d, r.result = .ok d) ∨ ∃ m, r.result = .error (.timeoutError m))) := by
  intro events
  induction events with
  | nil => intro imgs r h; exact absurd h (by simp [runWaitLoop])
  | cons p rest ih =>
    intro imgs r h
    obtain ⟨t, ev⟩ := p
    simp only [runWaitLoop] at h
    split at h
    · -- guard exit: afterLoop
      injection h with h
      subst h
      unfold afterLoop
      split <;> simp
    · -- guard passed: receive and process
      cases hs : stepEvent pid imgs ev with
      | error e =>
        rw [hs] at h
        injection h with h
        subst h
        simp only [Bool.false_eq_true, false_iff]
        rintro (⟨d, hd⟩ | ⟨m, hm⟩)
        · exact absurd hd (by simp)
        · exact stepEvent_ne_timeout pid imgs ev m (by rw [hs]; simpa using hm)
      | ok res =>
        obtain ⟨imgs', brk⟩ := res
        rw [hs] at h
        cases brk with
        | true =>
          simp only at h
          injection h with h
          subst h
          unfold afterLoop
          split <;> simp
        | false =>
          simp only at h
          exact ih imgs' r h

/-- C1: the claim that the notification-channel connection is closed on every
exit path is refuted by this run: the first received text message is `{}`
(no `type` key), processing raises `KeyError('type')`, and the error
propagates without `self.ws.close()` ever running (`wsClosed = false`) —
the source has no `try`/`finally` around the receive loop. -/
theorem claim_C1_counterexample :
    wait_for_completion "p" 300 [(0, .frame (.text (.obj [])))] 0
      = some ⟨.error (.keyError "type"), false⟩ := rfl

/-- C1 (amended): the connection is closed on normal completion and on the
timeout-triggered failure, but on a failure raised while receiving or
processing a message the error propagates with the connection left open:
for every terminating run, the connection was closed iff the call returned a
result or raised the post-loop `TimeoutError`. -/
theorem claim_C1_amended (pid : String) (timeout : Nat)
    (events : List (Nat × Event)) (tEnd : Nat) (r : WaitResult)
    (h : wait_for_completion pid timeout events tEnd = some r) :
    r.wsClosed = true ↔
      ((∃ d, r.result = .ok d) ∨ ∃ m, r.result = .error (.timeoutError m)) :=
  runWaitLoop_closed_iff pid timeout tEnd events [] r h

/-- Witness for C1 (amended) at a concrete completed run. -/
theorem claim_C1_witness :
    (⟨.ok [], true⟩ : WaitResult).wsClosed = true ↔
      ((∃ d, (⟨Except.ok [], true⟩ : WaitResult).result = .ok d) ∨
        ∃ m, (⟨Except.ok [], true⟩ : WaitResult).result = .error (.timeoutError m)) :=
  claim_C1_amended "p" 300 [(0, .frame (.text (completionMsg "p")))] 1 ⟨.ok [], true⟩ rfl

/-- Assigning a string key and then reading it back. -/
theorem dictLookup_insertReplace_self_str (d : Dict) (a : String) (v : Json) :
    dictLookup (dictInsertReplace d (.str a) v) (.str a) = some v := by
  induction d with
  | nil => simp [dictInsertReplace, dictLookup, jsonBeq]
  | cons p rest ih =>
    obtain ⟨k', v'⟩ := p
    simp only [dictInsertReplace]
    split
    · rename_i hk
      simp [dictLookup, hk]
    · rename_i hk
      simp [dictLookup, hk, ih]

/-- Assigning one string key leaves every other string key's binding
unchanged. -/
theorem dictLookup_insertReplace_str_other (d : Dict) (a b : String) (v : Json)
    (hab : a ≠ b) :
    dictLookup (dictInsertReplace d (.str a) v) (.str b) = dictLookup d (.str b) := by
  induction d with
  | nil => simp [dictInsertReplace, dictLookup, jsonBeq, hab]
  | cons p rest ih =>
    obtain ⟨k', v'⟩ := p
    simp only [dictInsertReplace]
    split
    · rename_i hk
      cases k' <;> simp [jsonBeq] at hk
      subst hk
      simp [dictLookup, jsonBeq, hab]
    · rename_i hk
      simp [dictLookup, ih]

/-- Effect of the `executed` image fold when `data['node']` is the string
`node`: every listed image is assigned in order, so the node ends bound to the
last image, and every other string key keeps its previous binding. -/
theorem foldImages_last (data : Json) (node : String)
    (hn : pyGet data "node" = .ok (.str node)) :
    ∀ (items : List Json) (hne : items ≠ []) (imgs : Dict),
      ∃ d', foldImages data imgs items = .ok (d', false) ∧
        dictLookup d' (.str node) = some (items.getLast hne) ∧
        ∀ b : String, b ≠ node → dictLookup d' (.str b) = dictLookup imgs (.str b) := by
  intro items
  induction items with
  | nil => intro hne; exact absurd rfl hne
  | cons im rest ih =>
    intro hne imgs
    have hstep : foldImages data imgs (im :: rest)
        = foldImages data (dictInsertReplace imgs (.str node) im) rest := by
      simp only [foldImages]
      rw [hn]
      exact rfl
    cases rest with
    | nil =>
      refine ⟨dictInsertReplace imgs (.str node) im, ?_, ?_, ?_⟩
      · rw [hstep]
        exact rfl
      · simpa [List.getLast] using dictLookup_insertReplace_self_str imgs node im
      · intro b hb
        exact dictLookup_insertReplace_str_other imgs node b im (fun hx => hb hx.symm)
    | cons y rest' =>
      obtain ⟨d', hfold, hself, hother⟩ :=
        ih (by simp) (dictInsertReplace imgs (.str node) im)
      refine ⟨d', by rw [hstep]; exact hfold, ?_, ?_⟩
      · rw [hself]
        exact rfl
      · intro b hb
        rw [hother b hb]
        exact dictLookup_insertReplace_str_other imgs node b im (fun hx => hb hx.symm)

/-- C2: the claim that the first-seen artifact reference per node is kept is
refuted by this run: one `executed` event for node `"9"` lists images
`a.png` then `b.png`, and after the completion event the returned mapping
holds `b.png` — the assignment loop overwrites, keeping the LAST-seen image,
not the first. -/
theorem claim_C2_counterexample :
    wait_for_completion "p" 300
      [(0, .frame (.text (.obj [("type", .str "executed"),
         ("data", .obj [("node", .str "9"),
           ("output", .obj [("images", .arr [.obj [("filename", .str "a.png")],
                                             .obj [("filename", .str "b.png")]])])])]))),
       (1, .frame (.text (completionMsg "p")))] 2
      = some ⟨.ok [(.str "9", .obj [("filename", .str "b.png")])], true⟩ ∧
    Json.str "b.png" ≠ Json.str "a.png" := by
  constructor
  · rfl
  · intro h
    injection h with h
    simp at h

/-- C2 (amended): processing an `executed` event whose `data` names node
`node` and carries a non-empty image list binds that node to the LAST listed
image (each assignment overwrites the previous, so across repeated events the
last-seen reference per node is kept), leaves every other node's binding
unchanged, and does not end the loop. -/
theorem claim_C2_amended (pid node : String) (imgs : Dict) (items : List Json)
    (hne : items ≠ []) :
    ∃ d', processFrame pid imgs (.text (.obj [("type", .str "executed"),
        ("data", .obj [("node", .str node),
          ("output", .obj [("images", .arr items)])])])) = .ok (d', false) ∧
      dictLookup d' (.str node) = some (items.getLast hne) ∧
      ∀ b : String, b ≠ node → dictLookup d' (.str b) = dictLookup imgs (.str b) := by
  have heq : processFrame pid imgs (.text (.obj [("type", .str "executed"),
      ("data", .obj [("node", .str node),
        ("output", .obj [("images", .arr items)])])]))
      = foldImages (.obj [("node", .str node),
          ("output", .obj [("images", .arr items)])]) imgs items := rfl
  rw [heq]
  exact foldImages_last (.obj [("node", .str node),
    ("output", .obj [("images", .arr items)])]) node rfl items hne imgs

/-- Witness for C2 (amended): one `executed` event with two images. -/
theorem claim_C2_witness :
    ∃ d', processFrame "p" [] (.text (.obj [("type", .str "executed"),
        ("data", .obj [("node", .str "9"),
          ("output", .obj [("images", .arr [.num 1, .num 2])])])])) = .ok (d', false) ∧
      dictLookup d' (.str "9") = some (([Json.num 1, Json.num 2]).getLast (by simp)) ∧
      ∀ b : String, b ≠ "9" → dictLookup d' (.str b) = dictLookup ([] : Dict) (.str b) :=
  claim_C2_amended "p" "9" [] [.num 1, .num 2] (by simp)

/-- A JSON value that `==` a string literal is that string. -/
theorem jsonIsStr_eq {j : Json} {s : String} (h : jsonIsStr j s = true) : j = .str s := by
  cases j <;> simp [jsonIsStr] at h
  simp [h]

/-- C3: one loop iteration executes `break` exactly when the received frame is
a text message whose `type` is `"executing"` and whose `data` has `node` equal
to `null` and `prompt_id` equal to the waited-for job identifier; `progress`
and `executed` messages, every other `type`, and binary frames never do. -/
theorem claim_C3 (pid : String) (imgs : Dict) (ev : Event) :
    (∃ imgs', stepEvent pid imgs ev = .ok (imgs', true)) ↔
    (∃ msg data, ev = .frame (.text msg) ∧
       pyGet msg "type" = .ok (.str "executing") ∧
       pyGet msg "data" = .ok data ∧
       pyGet data "node" = .ok .null ∧
       pyGet data "prompt_id" = .ok (.str pid)) := by
  constructor
  · rintro ⟨imgs', h⟩
    cases ev with
    | recvFail => exact absurd h (by simp [stepEvent])
    | frame f =>
      cases f with
      | binary => exact absurd h (by simp [stepEvent, processFrame])
      | text msg =>
        simp only [stepEvent, processFrame] at h
        repeat' split at h
        all_goals try simp at h
        · rename_i x1 ty hty hex x2 data hdata x3 n1 hnode x4 pv hpv hpvok
          rw [jsonIsStr_eq hex] at hty
          rw [jsonIsStr_eq hpvok] at hpv
          exact ⟨msg, data, rfl, hty, hdata, hnode, hpv⟩
        · exact Bool.noConfusion (foldImages_flag _ _ _ _ _ h)
  · rintro ⟨msg, data, rfl, hty, hdata, hnode, hpid⟩
    refine ⟨imgs, ?_⟩
    simp [stepEvent, processFrame, hty, hdata, hnode, hpid, jsonIsStr]

/-- Witness for C3: the completion message for job `"p"` breaks the loop. -/
theorem claim_C3_witness :
    ∃ imgs', stepEvent "p" [] (.frame (.text (completionMsg "p"))) = .ok (imgs', true) :=
  (claim_C3 "p" [] (.frame (.text (completionMsg "p")))).mpr
    ⟨completionMsg "p", .obj [("node", .null), ("prompt_id", .str "p")],
      rfl, rfl, rfl, rfl, rfl⟩

/-- Timeout path of the wait loop: when some guard reading reaches the budget
and every earlier message is consumed without `break` or error, the loop exits
via the guard, closes the connection, and the post-loop check raises. -/
theorem runWaitLoop_timeout (pid : String) (timeout tEnd : Nat) (hEnd : timeout ≤ tEnd) :
    ∀ (events : List (Nat × Event)) (imgs : Dict),
      (∃ p ∈ events, timeout ≤ p.1) →
      (∀ p ∈ events, p.1 < timeout →
        ∀ d : Dict, ∃ d', stepEvent pid d p.2 = .ok (d', false)) →
      runWaitLoop pid timeout tEnd imgs events
        = some ⟨.error (.timeoutError (timeoutMsg timeout)), true⟩ := by
  intro events
  induction events with
  | nil =>
    intro imgs h _
    rcases h with ⟨p, hp, _⟩
    exact absurd hp (by simp)
  | cons q rest ih =>
    intro imgs hreach hpre
    obtain ⟨t, ev⟩ := q
    simp only [runWaitLoop]
    by_cases hg : timeout ≤ t
    · rw [if_pos hg]
      unfold afterLoop
      rw [if_pos hEnd]
    · rw [if_neg hg]
      have ht : t < timeout := Nat.lt_of_not_le hg
      obtain ⟨d', hd'⟩ := hpre (t, ev) (by simp) ht imgs
      rw [hd']
      apply ih
      · rcases hreach with ⟨p, hp, hple⟩
        rcases List.mem_cons.mp hp with rfl | h1
        · exact absurd hple (by omega)
        · exact ⟨p, h1, hple⟩
      · intro p hp hlt
        exact hpre p (List.mem_cons_of_mem _ hp) hlt

/-- C4: if no qualifying completion event arrives while the guard readings are
still under the budget (every pre-deadline message processes without `break`
and without error), and some guard reading reaches the budget,
`wait_for_completion` raises `TimeoutError` — with the connection closed
(`wsClosed = true`) before the raise. -/
theorem claim_C4 (pid : String) (timeout : Nat) (events : List (Nat × Event))
    (tEnd : Nat) (hEnd : timeout ≤ tEnd)
    (hreach : ∃ p ∈ events, timeout ≤ p.1)
    (hpre : ∀ p ∈ events, p.1 < timeout →
      ∀ d : Dict, ∃ d', stepEvent pid d p.2 = .ok (d', false)) :
    wait_for_completion pid timeout events tEnd
      = some ⟨.error (.timeoutError (timeoutMsg timeout)), true⟩ :=
  runWaitLoop_timeout pid timeout tEnd hEnd events [] hreach hpre

/-- Witness for C4: a binary frame before the deadline, then the guard trips. -/
theorem claim_C4_witness :
    wait_for_completion "p" 5 [(0, .frame .binary), (5, .frame .binary)] 6
      = some ⟨.error (.timeoutError (timeoutMsg 5)), true⟩ :=
  claim_C4 "p" 5 [(0, .frame .binary), (5, .frame .binary)] 6 (by omega)
    ⟨(5, .frame .binary), by simp, by omega⟩
    (fun p hp hlt d => by
      rcases List.mem_cons.mp hp with rfl | hp2
      · exact ⟨d, rfl⟩
      · rcases List.mem_cons.mp hp2 with rfl | hp3
        · exact absurd hlt (by omega)
        · exact absurd hp3 (by simp))

/-- C9: the post-loop check does not distinguish a break-exit from a
guard-exit — when the completion message for the job is received at a guard
reading below the budget but the post-loop clock reading has reached it, the
loop exits by `break`, the accumulated images are discarded, and the call
raises `TimeoutError` (after closing the connection). -/
theorem claim_C9 (pid : String) (timeout t0 tEnd : Nat)
    (h1 : t0 < timeout) (h2 : timeout ≤ tEnd) :
    wait_for_completion pid timeout [(t0, .frame (.text (completionMsg pid)))] tEnd
      = some ⟨.error (.timeoutError (timeoutMsg timeout)), true⟩ := by
  have hstep : stepEvent pid [] (.frame (.text (completionMsg pid))) = .ok ([], true) := by
    simp [stepEvent, processFrame, completionMsg, pyGet, lookupField, jsonIsStr]
  unfold wait_for_completion runWaitLoop
  rw [if_neg (by omega), hstep]
  show some (afterLoop timeout tEnd []) = _
  unfold afterLoop
  rw [if_pos h2]

/-- Witness for C9: budget 1, completion received at elapsed 0, post-loop
reading 1. -/
theorem claim_C9_witness :
    wait_for_completion "p" 1 [(0, .frame (.text (completionMsg "p")))] 1
      = some ⟨.error (.timeoutError (timeoutMsg 1)), true⟩ :=
  claim_C9 "p" 1 0 1 (by omega) (by omega)

/-- The single-node image patch is a no-op when the node is absent. -/
theorem update_workflow_image_absent (w : Workflow) (client : Option (String → String))
    (ip : Option String) (node_id : String) (h : lookupField w node_id = none) :
    update_workflow_image w client ip node_id = .ok w := by
  cases ip <;> simp [update_workflow_image, h]

/-- C5: every patch helper returns the Job Definition unchanged, raising no
error, when the targeted node identifier is absent from it. -/
theorem claim_C5 (w : Workflow) (client : Option (String → String))
    (ip i1 i2 i3 ln : Option String) (node_id : String) (sd : Option Int)
    (rand : Int) (prompt : String)
    (hnid : lookupField w node_id = none)
    (h78 : lookupField w "78" = none) (h106 : lookupField w "106" = none)
    (h108 : lookupField w "108" = none) (h111 : lookupField w "111" = none) :
    update_workflow_image w client ip node_id = .ok w ∧
    update_workflow_images w client i1 i2 i3 = .ok w ∧
    update_workflow_prompt w prompt = .ok w ∧
    update_workflow_lora w ln node_id = .ok w ∧
    update_workflow_seed w sd node_id rand = .ok w := by
  refine ⟨update_workflow_image_absent w client ip node_id hnid, ?_, ?_, ?_, ?_⟩
  · simp [update_workflow_images,
      update_workflow_image_absent w client i1 "78" h78,
      update_workflow_image_absent w client i2 "106" h106,
      update_workflow_image_absent w client i3 "108" h108]
  · simp [update_workflow_prompt, h111]
  · cases ln <;> simp [update_workflow_lora, hnid]
  · cases sd <;> simp [update_workflow_seed, hnid]

/-- Witness for C5: a workflow holding only node `"2"`, targeting node `"1"`. -/
theorem claim_C5_witness :
    update_workflow_image [("2", .obj [])] none (some "a.png") "1" = .ok [("2", .obj [])] ∧
    update_workflow_images [("2", .obj [])] none (some "a.png") (some "b.png") none
      = .ok [("2", .obj [])] ∧
    update_workflow_prompt [("2", .obj [])] "hello" = .ok [("2", .obj [])] ∧
    update_workflow_lora [("2", .obj [])] (some "l.safetensors") "1" = .ok [("2", .obj [])] ∧
    update_workflow_seed [("2", .obj [])] none "1" 42 = .ok [("2", .obj [])] :=
  claim_C5 [("2", .obj [])] none (some "a.png") (some "a.png") (some "b.png") none
    (some "l.safetensors") "1" none 42 "hello" rfl rfl rfl rfl rfl

/-- C10: the claim that the image patcher fails with a key-lookup error
whenever the targeted node exists but lacks the `inputs` mapping OR the
targeted field is refuted in the second case: here node `"1"` exists with an
`inputs` dict that lacks the `image` field, and the patcher succeeds,
creating the field. -/
theorem claim_C10_counterexample :
    update_workflow_image [("1", .obj [("inputs", .obj [])])] none (some "cat.png") "1"
      = .ok [("1", .obj [("inputs", .obj [("image", .str "cat.png")])])] := rfl

/-- C10 (amended): when the targeted node's record lacks the `inputs` mapping,
the image and prompt patchers fail with `KeyError('inputs')` while the LoRA
and seed patchers check and leave the definition unchanged; when `inputs`
exists but lacks the targeted field, the image and prompt patchers succeed by
creating the field, while the LoRA and seed patchers still leave the
definition unchanged. -/
theorem claim_C10_amended (w : Workflow) (node_id : String)
    (nf : List (String × Json)) (p pr ln : String) (sd rand : Int)
    (hp : p ≠ "") (hln : ln ≠ "")
    (hnode : lookupField w node_id = some (.obj nf)) :
    (lookupField nf "inputs" = none →
      update_workflow_image w none (some p) node_id = .error (.keyError "inputs") ∧
      (lookupField w "111" = some (.obj nf) →
        update_workflow_prompt w pr = .error (.keyError "inputs")) ∧
      update_workflow_lora w (some ln) node_id = .ok w ∧
      update_workflow_seed w (some sd) node_id rand = .ok w) ∧
    (∀ inp, lookupField nf "inputs" = some (.obj inp) →
      (lookupField inp "image" = none →
        update_workflow_image w none (some p) node_id
          = .ok (insertReplaceS w node_id (.obj (insertReplaceS nf "inputs"
              (.obj (insertReplaceS inp "image" (.str (basename p)))))))) ∧
      (lookupField w "111" = some (.obj nf) → lookupField inp "prompt" = none →
        update_workflow_prompt w pr
          = .ok (insertReplaceS w "111" (.obj (insertReplaceS nf "inputs"
              (.obj (insertReplaceS inp "prompt" (.str pr))))))) ∧
      (lookupField inp "lora_name" = none →
        update_workflow_lora w (some ln) node_id = .ok w) ∧
      (lookupField inp "seed" = none →
        update_workflow_seed w (some sd) node_id rand = .ok w)) := by
  constructor
  · intro hmiss
    refine ⟨?_, ?_, ?_, ?_⟩
    · simp [update_workflow_image, hp, hnode, setNodeInput, pyGet, hmiss]
    · intro h111
      simp [update_workflow_prompt, h111, setNodeInput, pyGet, hmiss]
    · simp [update_workflow_lora, hln, hnode, setNodeInputIfPresent, pyContains, hmiss]
    · simp [update_workflow_seed, hnode, setNodeInputIfPresent, pyContains, hmiss]
  · intro inp hinp
    refine ⟨?_, ?_, ?_, ?_⟩
    · intro hfield
      simp [update_workflow_image, hp, hnode, setNodeInput, pyGet, hinp]
    · intro h111 hfield
      simp [update_workflow_prompt, h111, setNodeInput, pyGet, hinp]
    · intro hfield
      simp [update_workflow_lora, hln, hnode, setNodeInputIfPresent, pyContains,
        pyGet, hinp, hfield]
    · intro hfield
      simp [update_workflow_seed, hnode, setNodeInputIfPresent, pyContains,
        pyGet, hinp, hfield]

/-- Witness for C10 (amended): node `"1"` with an empty `inputs` dict — the
LoRA patcher leaves the workflow unchanged while the image patcher (see the
counterexample) creates the missing field. -/
theorem claim_C10_witness :
    update_workflow_lora [("1", .obj [("inputs", .obj [])])] (some "l.safetensors") "1"
      = .ok [("1", .obj [("inputs", .obj [])])] :=
  (((claim_C10_amended [("1", .obj [("inputs", .obj [])])] "1" [("inputs", .obj [])]
      "cat.png" "hi" "l.safetensors" 7 0 (by simp) (by simp) rfl).2
    [] rfl).2.2.1) rfl

/-- The spec's submit-failure scenario: non-2xx response with body
`{"error": {"message": "bad node"}}`. -/
def badNodeResp : HttpResponse :=
  ⟨400, some (.obj [("error", .obj [("message", .str "bad node")])]),
    "\x7b\x22error\x22: \x7b\x22message\x22: \x22bad node\x22\x7d\x7d"⟩

/-- A non-2xx response carrying structured per-node validation errors and a
top-level error message. -/
def nodeErrorsResp : HttpResponse :=
  ⟨400, some (.obj [
    ("node_errors", .obj [("7", .obj [("errors", .arr
      [.obj [("type", .str "value_not_in_list"), ("message", .str "bad value"),
             ("details", .str "got X")]])])]),
    ("error", .obj [("message", .str "invalid prompt")])]), "body"⟩

/-- C6: on the scenario response, `queue_prompt` propagates the HTTP error to
its caller, and among the surfaced diagnostic lines is `Error: bad node`,
which contains the substring `bad node`; moreover, on a response with
structured `node_errors`, the per-node type/message/details and the top-level
error message are all surfaced before the error propagates. -/
theorem claim_C6 :
    (queue_prompt badNodeResp).result = .error (.httpError 400) ∧
    "\nError: bad node" ∈ (queue_prompt badNodeResp).printed ∧
    isSubstr "bad node".data "\nError: bad node".data = true ∧
    (queue_prompt nodeErrorsResp).printed
      = ["Error queueing prompt: 400 Client Error",
         "Response status: 400",
         "Response text: body",
         "\nNode Errors:",
         "  Node 7:",
         "    - value_not_in_list: bad value",
         "      Details: got X",
         "\nError: invalid prompt"] :=
  ⟨rfl, by decide, by decide, by decide⟩

/-- `splitext` unfolded against precomputed basename/extension scans. -/
theorem splitext_spec (p bv xv : List Char)
    (hb : p.reverse.takeWhile (fun c => c ≠ '/') = bv)
    (hx : bv.takeWhile (fun c => c ≠ '.') = xv) :
    splitext p =
      if xv.length = bv.length then (p, [])
      else if (bv.drop (xv.length + 1)).any (fun c => c ≠ '.') then
        (p.take (p.length - xv.length - 1), '.' :: xv.reverse)
      else (p, []) := by
  subst hx
  subst hb
  rfl

/-- `takeWhile` passes through a satisfied prefix. -/
theorem takeWhile_append_all {α : Type} (p : α → Bool) (l1 l2 : List α)
    (h : ∀ a ∈ l1, p a = true) :
    (l1 ++ l2).takeWhile p = l1 ++ l2.takeWhile p := by
  induction l1 with
  | nil => simp
  | cons a l ih =>
    have ha : p a = true := h a (by simp)
    simp only [List.cons_append, List.takeWhile_cons, ha, if_true]
    rw [ih (fun x hx => h x (by simp [hx]))]

/-- `takeWhile` of a fully satisfied list. -/
theorem takeWhile_eq_self_of_all {α : Type} (p : α → Bool) (l : List α)
    (h : ∀ a ∈ l, p a = true) : l.takeWhile p = l := by
  simpa using takeWhile_append_all p l [] h

/-- `takeWhile` stops at the first failing element. -/
theorem takeWhile_stop {α : Type} (p : α → Bool) (l1 l2 : List α) (a : α)
    (h : ∀ x ∈ l1, p x = true) (ha : p a = false) :
    (l1 ++ a :: l2).takeWhile p = l1 := by
  rw [takeWhile_append_all p l1 (a :: l2) h, List.takeWhile_cons, ha]
  simp

/-- The format facts of a `%Y%m%d_%H%M%S` stamp needed for the round trip:
its length, and that it contains neither a dot nor a path separator. -/
theorem isTimestamp_facts (ts : List Char) (h : isTimestamp ts = true) :
    ts.length = 15 ∧ ∀ c ∈ ts, c ≠ '.' ∧ c ≠ '/' := by
  simp only [isTimestamp, Bool.and_eq_true, decide_eq_true_eq, List.all_eq_true] at h
  obtain ⟨⟨h1, _⟩, h3⟩ := h
  refine ⟨h1, ?_⟩
  intro c hc
  have hor : c.isDigit = true ∨ c = '_' := by simpa using h3 c hc
  rcases hor with hd | he
  · constructor
    · intro hcc; subst hcc; exact absurd hd (by decide)
    · intro hcc; subst hcc; exact absurd hd (by decide)
  · subst he
    exact ⟨by decide, by decide⟩

/-- Inserting `_{timestamp}` before the extension commutes with `splitext`:
the saved name splits into the original stem extended by the stamp, and the
original extension. -/
theorem splitext_newFilename (f ts : List Char) (hts : isTimestamp ts = true) :
    splitext (newFilename f ts) = ((splitext f).1 ++ '_' :: ts, (splitext f).2) := by
  obtain ⟨hlen, hmem⟩ := isTimestamp_facts ts hts
  have hts_slash : ∀ c ∈ ts.reverse ++ ['_'], (fun c => (c ≠ '/' : Bool)) c = true := by
    intro c hc
    rcases List.mem_append.mp hc with h1 | h1
    · simpa using (hmem c (List.mem_reverse.mp h1)).2
    · simp at h1; subst h1; decide
  have hts_dot : ∀ c ∈ ts.reverse ++ ['_'], (fun c => (c ≠ '.' : Bool)) c = true := by
    intro c hc
    rcases List.mem_append.mp hc with h1 | h1
    · simpa using (hmem c (List.mem_reverse.mp h1)).1
    · simp at h1; subst h1; decide
  set b := f.reverse.takeWhile (fun c => (c ≠ '/' : Bool)) with hbdef
  set x := b.takeWhile (fun c => (c ≠ '.' : Bool)) with hxdef
  have hbmem : ∀ c ∈ b, c ≠ '/' := by
    intro c hc
    rw [hbdef] at hc
    simpa using List.mem_takeWhile_imp hc
  have hxmem_dot : ∀ c ∈ x, c ≠ '.' := by
    intro c hc
    rw [hxdef] at hc
    simpa using List.mem_takeWhile_imp hc
  have hxb : x <+: b := hxdef ▸ List.takeWhile_prefix _
  have hspec := splitext_spec f b x hbdef.symm hxdef.symm
  by_cases hA : x.length = b.length
  · -- no usable dot in the basename: no extension
    have hxeqb : x = b := List.IsPrefix.eq_of_length hxb hA
    have hbdot : ∀ c ∈ b, c ≠ '.' := fun c hc => hxmem_dot c (hxeqb ▸ hc)
    have hsf : splitext f = (f, []) := by rw [hspec, if_pos hA]
    have hnew : newFilename f ts = f ++ '_' :: ts := by
      unfold newFilename; rw [hsf]; simp
    rw [hnew, hsf]
    have hb' : (f ++ '_' :: ts).reverse.takeWhile (fun c => (c ≠ '/' : Bool))
        = (ts.reverse ++ ['_']) ++ b := by
      have hrev : (f ++ '_' :: ts).reverse = (ts.reverse ++ ['_']) ++ f.reverse := by simp
      rw [hrev, takeWhile_append_all _ _ _ hts_slash, hbdef]
    have hx' : (((ts.reverse ++ ['_']) ++ b).takeWhile (fun c => (c ≠ '.' : Bool)))
        = (ts.reverse ++ ['_']) ++ b := by
      refine takeWhile_eq_self_of_all _ _ ?_
      intro c hc
      rcases List.mem_append.mp hc with h1 | h1
      · exact hts_dot c h1
      · simpa using hbdot c h1
    rw [splitext_spec _ _ _ hb' hx']
    simp
  · by_cases hB : ((b.drop (x.length + 1)).any (fun c => (c ≠ '.' : Bool))) = true
    · -- a real extension: the stamp lands at the end of the stem
      have hsf : splitext f = (f.take (f.length - x.length - 1), '.' :: x.reverse) := by
        rw [hspec, if_neg hA, if_pos hB]
      have hnew : newFilename f ts
          = (f.take (f.length - x.length - 1) ++ '_' :: ts) ++ '.' :: x.reverse := by
        unfold newFilename; rw [hsf]
      rw [hnew, hsf]
      have hb'' : ((f.take (f.length - x.length - 1) ++ '_' :: ts) ++ '.' :: x.reverse).reverse.takeWhile
            (fun c => (c ≠ '/' : Bool))
          = (x ++ '.' :: (ts.reverse ++ ['_']))
            ++ (f.take (f.length - x.length - 1)).reverse.takeWhile (fun c => (c ≠ '/' : Bool)) := by
        have hrev : ((f.take (f.length - x.length - 1) ++ '_' :: ts) ++ '.' :: x.reverse).reverse
            = (x ++ '.' :: (ts.reverse ++ ['_'])) ++ (f.take (f.length - x.length - 1)).reverse := by
          simp
        rw [hrev]
        refine takeWhile_append_all _ _ _ ?_
        intro c hc
        rcases List.mem_append.mp hc with h1 | h1
        · simpa using hbmem c (hxb.subset h1)
        · rcases List.mem_cons.mp h1 with h2 | h2
          · subst h2; decide
          · exact hts_slash c h2
      have hx'' : ((x ++ '.' :: (ts.reverse ++ ['_']))
            ++ (f.take (f.length - x.length - 1)).reverse.takeWhile (fun c => (c ≠ '/' : Bool))).takeWhile
            (fun c => (c ≠ '.' : Bool)) = x := by
        have hassoc : (x ++ '.' :: (ts.reverse ++ ['_']))
              ++ (f.take (f.length - x.length - 1)).reverse.takeWhile (fun c => (c ≠ '/' : Bool))
            = x ++ '.' :: ((ts.reverse ++ ['_'])
              ++ (f.take (f.length - x.length - 1)).reverse.takeWhile (fun c => (c ≠ '/' : Bool))) := by
          simp
        rw [hassoc]
        refine takeWhile_stop _ _ _ _ ?_ (by decide)
        intro c hc
        simpa using hxmem_dot c hc
      have hc1 : ¬ (x.length = ((x ++ '.' :: (ts.reverse ++ ['_']))
            ++ (f.take (f.length - x.length - 1)).reverse.takeWhile (fun c => (c ≠ '/' : Bool))).length) := by
        simp only [List.length_append, List.length_cons, List.length_reverse]
        omega
      have hc2 : (((x ++ '.' :: (ts.reverse ++ ['_']))
            ++ (f.take (f.length - x.length - 1)).reverse.takeWhile (fun c => (c ≠ '/' : Bool))).drop
            (x.length + 1)).any (fun c => (c ≠ '.' : Bool)) = true := by
        have hassoc : (x ++ '.' :: (ts.reverse ++ ['_']))
              ++ (f.take (f.length - x.length - 1)).reverse.takeWhile (fun c => (c ≠ '/' : Bool))
            = (x ++ ['.']) ++ ((ts.reverse ++ ['_'])
              ++ (f.take (f.length - x.length - 1)).reverse.takeWhile (fun c => (c ≠ '/' : Bool))) := by
          simp
        have hidx : x.length + 1 = (x ++ ['.']).length + 0 := by simp
        rw [hassoc, hidx, List.drop_append, List.drop_zero]
        refine List.any_eq_true.mpr ⟨'_', by simp, by decide⟩
      rw [splitext_spec _ _ _ hb'' hx'', if_neg hc1, if_pos hc2]
      have htakelen : ((f.take (f.length - x.length - 1) ++ '_' :: ts) ++ '.' :: x.reverse).length
            - x.length - 1
          = (f.take (f.length - x.length - 1) ++ '_' :: ts).length := by
        simp only [List.length_append, List.length_cons, List.length_reverse, hlen]
        omega
      rw [htakelen, List.take_left]
    · -- a dot exists but only leading dots precede it: still no extension
      have hsf : splitext f = (f, []) := by rw [hspec, if_neg hA, if_neg hB]
      have hnew : newFilename f ts = f ++ '_' :: ts := by
        unfold newFilename; rw [hsf]; simp
      rw [hnew, hsf]
      have hb' : (f ++ '_' :: ts).reverse.takeWhile (fun c => (c ≠ '/' : Bool))
          = (ts.reverse ++ ['_']) ++ b := by
        have hrev : (f ++ '_' :: ts).reverse = (ts.reverse ++ ['_']) ++ f.reverse := by simp
        rw [hrev, takeWhile_append_all _ _ _ hts_slash, hbdef]
      have hx' : (((ts.reverse ++ ['_']) ++ b).takeWhile (fun c => (c ≠ '.' : Bool)))
          = (ts.reverse ++ ['_']) ++ x := by
        rw [takeWhile_append_all _ _ _ hts_dot, hxdef]
      have hc1 : ¬ (((ts.reverse ++ ['_']) ++ x).length = ((ts.reverse ++ ['_']) ++ b).length) := by
        simp only [List.length_append, List.length_cons, List.length_reverse]
        omega
      have hc2 : ¬ ((((ts.reverse ++ ['_']) ++ b).drop
            (((ts.reverse ++ ['_']) ++ x).length + 1)).any (fun c => (c ≠ '.' : Bool)) = true) := by
        have hidx : ((ts.reverse ++ ['_']) ++ x).length + 1
            = (ts.reverse ++ ['_']).length + (x.length + 1) := by
          simp only [List.length_append, List.length_cons, List.length_reverse]
          omega
        rw [hidx, List.drop_append]
        exact fun hcon => hB hcon
      rw [splitext_spec _ _ _ hb' hx', if_neg hc1, if_neg hc2]

/-- C7: every artifact saved by `generate_image` is named
`{stem}_{YYYYMMDD_HHMMSS}{ext}` over the original filename's `splitext`
decomposition, and stripping the inserted 16-character timestamp segment
recovers the original stem and extension. -/
theorem claim_C7 (f ts : List Char) (hts : isTimestamp ts = true) :
    newFilename f ts = (splitext f).1 ++ '_' :: ts ++ (splitext f).2 ∧
    specStripTimestamp (newFilename f ts) = splitext f := by
  obtain ⟨hlen, -⟩ := isTimestamp_facts ts hts
  refine ⟨rfl, ?_⟩
  unfold specStripTimestamp
  rw [splitext_newFilename f ts hts]
  have htake : ((splitext f).1 ++ '_' :: ts).length - 16 = (splitext f).1.length := by
    simp [hlen]
  rw [htake, List.take_left]

/-- Witness for C7 at `out.png` with stamp `20250101_120000`. -/
theorem claim_C7_witness :
    newFilename "out.png".data "20250101_120000".data
      = (splitext "out.png".data).1 ++ '_' :: "20250101_120000".data
        ++ (splitext "out.png".data).2 ∧
    specStripTimestamp (newFilename "out.png".data "20250101_120000".data)
      = splitext "out.png".data :=
  claim_C7 "out.png".data "20250101_120000".data (by decide)

/-- The image loop on a well-formed `images` list yields one joined path per
image, in listed order. -/
theorem collectImages_mk (dir ts : List Char) (files : List (List Char)) :
    collectImages dir ts (files.map (fun f => .obj [("filename", .str (String.mk f))]))
      = .ok (files.map (fun f => osPathJoin dir (newFilename f ts))) := by
  induction files with
  | nil => rfl
  | cons f rest ih =>
    have h1 : collectImages dir ts
          ((f :: rest).map (fun f => Json.obj [("filename", .str (String.mk f))]))
        = match collectImages dir ts
            (rest.map (fun f => Json.obj [("filename", .str (String.mk f))])) with
          | .error e => .error e
          | .ok paths => .ok (osPathJoin dir (newFilename f ts) :: paths) := rfl
    rw [h1, ih]
    rfl

/-- The node loop on built node records concatenates each node's image paths
in history order, skipping records without an `images` key. -/
theorem collectNodes_mk (dir ts : List Char)
    (nodes : List (String × Option (List (List Char)))) :
    collectNodes dir ts (nodes.map (fun p => (p.1, mkNodeRecord p.2)))
      = .ok (nodes.flatMap
          (fun p => (p.2.getD []).map (fun f => osPathJoin dir (newFilename f ts)))) := by
  induction nodes with
  | nil => rfl
  | cons q rest ih =>
    obtain ⟨nid, o⟩ := q
    cases o with
    | none =>
      have h1 : collectNodes dir ts
            (((nid, none) :: rest).map (fun p => (p.1, mkNodeRecord p.2)))
          = collectNodes dir ts (rest.map (fun p => (p.1, mkNodeRecord p.2))) := rfl
      rw [h1, ih]
      simp
    | some files =>
      have h1 : collectNodes dir ts
            (((nid, some files) :: rest).map (fun p => (p.1, mkNodeRecord p.2)))
          = match collectImages dir ts
              (files.map (fun f => Json.obj [("filename", .str (String.mk f))])) with
            | .error e => .error e
            | .ok paths =>
              match collectNodes dir ts (rest.map (fun p => (p.1, mkNodeRecord p.2))) with
              | .error e => .error e
              | .ok later => .ok (paths ++ later) := rfl
      rw [h1, collectImages_mk, ih]
      simp

/-- C8: the artifact-collection phase of `generate_image` returns an empty
sequence, not an error, when the job identifier is absent from the history
mapping (and, per the second part, when no node carries images); when outputs
exist, the written paths follow the node order returned by history and, per
node, the listed image order. -/
theorem claim_C8 :
    (∀ (hs : List (String × Json)) (prompt_id : String) (dir ts : List Char),
      lookupField hs prompt_id = none →
      generate_image_collect (.obj hs) prompt_id dir ts = .ok []) ∧
    (∀ (prompt_id : String) (nodes : List (String × Option (List (List Char))))
      (dir ts : List Char),
      generate_image_collect (mkHistory prompt_id nodes) prompt_id dir ts
        = .ok (nodes.flatMap
            (fun p => (p.2.getD []).map (fun f => osPathJoin dir (newFilename f ts))))) := by
  constructor
  · intro hs prompt_id dir ts h
    simp [generate_image_collect, pyContains, h]
  · intro prompt_id nodes dir ts
    have h1 : generate_image_collect (mkHistory prompt_id nodes) prompt_id dir ts
        = collectNodes dir ts (nodes.map (fun p => (p.1, mkNodeRecord p.2))) := by
      simp [generate_image_collect, mkHistory, pyContains, pyGet, lookupField]
    rw [h1, collectNodes_mk]

/-- Witness for C8: an absent identifier yields `[]`; the spec's history
scenario yields exactly one path, built from `out.png`. -/
theorem claim_C8_witness :
    generate_image_collect (.obj [("other", .obj [])]) "p"
      "out".data "20250101_120000".data = .ok [] ∧
    generate_image_collect (mkHistory "p" [("9", some ["out.png".data])]) "p"
      "output".data "20250101_120000".data
      = .ok ([("9", some ["out.png".data])].flatMap
          (fun p => (p.2.getD []).map
            (fun f => osPathJoin "output".data (newFilename f "20250101_120000".data)))) :=
  ⟨claim_C8.1 [("other", .obj [])] "p" "out".data "20250101_120000".data rfl,
   claim_C8.2 "p" [("9", some ["out.png".data])] "output".data "20250101_120000".data⟩

end ComfyUI
